import Mathlib

/-!
Verification of the kercat session engine (a netcat-style TCP pipe utility)
against its natural-language specification.

The Rust sources are shallowly embedded:
* byte buffers become `List Nat`;
* the port-specification parser `parse_port_ranges` (src/args.rs) is
  translated token by token, with Rust's `str::split` and `u16::from_str`
  modelled faithfully over `List Char`;
* the stateful loops (`receive_data`, `input_task`, `network_task`,
  `start_session`) become structurally recursive functions over an explicit
  trace of the I/O events the loop would observe (underlying socket reads,
  stdin reads, channel receptions), with external library calls (socket
  address parsing, connect results, task results) passed in as oracle
  functions.
-/

namespace Kercat

/-- Byte buffers (`Vec<u8>` in the source) are lists of naturals. -/
abbrev Bytes := List Nat

/-! ## PortRangeExpander: `parse_port_ranges` (src/args.rs) -/

/-- Rust's `str::split(sep)` over the character list of the string:
`"".split(c)` yields one empty token, `"a,".split(',')` yields `["a",""]`. -/
def splitOnChar (sep : Char) : List Char → List (List Char)
  | [] => [[]]
  | c :: cs =>
    if c = sep then [] :: splitOnChar sep cs
    else
      match splitOnChar sep cs with
      | t :: ts => (c :: t) :: ts
      | [] => [[c]]

/-- Accumulate a decimal value over a character list; `none` on any
non-digit. -/
def digitsToNat : List Char → Nat → Option Nat
  | [], acc => some acc
  | c :: cs, acc =>
    if c.isDigit then digitsToNat cs (acc * 10 + (c.toNat - 48)) else none

/-- Rust's `u16::from_str`: an optional leading `+`, then one or more ASCII
digits, and the value must fit in a `u16` (≤ 65535). Anything else is a
parse error, modelled as `none`. -/
def parseU16 (s : List Char) : Option Nat :=
  let cs := match s with
    | '+' :: rest => rest
    | cs => cs
  match cs with
  | [] => none
  | _ =>
    match digitsToNat cs 0 with
    | none => none
    | some v => if v ≤ 65535 then some v else none

/-- The body of the `for token in port_str.split(',')` loop of
`parse_port_ranges`: the ports one token contributes. A malformed token
(wrong arity after splitting on `-`, non-numeric bound, reversed range,
unparsable single port) contributes nothing — the Rust code prints a
diagnostic and `continue`s. -/
def expandToken (token : List Char) : List Nat :=
  if token.contains '-' then
    match splitOnChar '-' token with
    | [s1, s2] =>
      match parseU16 s1 with
      | none => []
      | some start =>
        match parseU16 s2 with
        | none => []
        | some stop =>
          if start > stop then []
          else List.range' start (stop + 1 - start)
    | _ => []
  else
    match parseU16 token with
    | none => []
    | some p => [p]

/-- The accumulating loop of `parse_port_ranges`: `ports` is the `Vec` being
pushed onto. -/
def parse_port_ranges_go : List (List Char) → List Nat → List Nat
  | [], ports => ports
  | t :: ts, ports => parse_port_ranges_go ts (ports ++ expandToken t)

/-- `parse_port_ranges` (src/args.rs, lines 221–268). -/
def parse_port_ranges (port_str : String) : List Nat :=
  parse_port_ranges_go (splitOnChar ',' port_str.data) []

/-! ## Configuration (src/args.rs: the `Config` built by `parse_args`) -/

/-- `AddressType` (the `-4` / `-6` restriction; `IP` is the default). -/
inductive AddressType
  | IPv4
  | IPv6
  | IP
deriving DecidableEq

/-- A parsed `SocketAddr`: either the V4 or the V6 variant. The numeric
payloads abstract the IP bits, which no claim inspects. -/
inductive SockAddr
  | v4 (ip port : Nat)
  | v6 (ip port : Nat)
deriving DecidableEq

/-- The `Config` record assembled by `parse_args` (src/args.rs). -/
structure Config where
  addr_type : AddressType
  addresses : List SockAddr
  listen : Bool
  keep_listening : Bool
  input_buffer_size : Nat
  output_buffer_size : Nat
  ignore_eof : Bool
deriving DecidableEq

/-! ## Connection.receive_data (src/connection.rs, lines 54–74)

The loop is driven by the sequence of underlying `stream.read` results; each
element of the trace is the byte chunk one `read` call returned (a TCP read
may return any non-empty chunk of at most `input_buffer_size` bytes, or an
empty chunk when the peer has closed). -/

/-- Outcome of one `receive_data` call over a finite read trace. -/
inductive RecvOutcome
  | frame (data : Bytes)
  | closed
  | pending
deriving DecidableEq

/-- The `receive_data` loop with `total_data` as accumulator: a zero-length
read returns `Err(SessionError::ClientDisconnected)` (modelled `closed`,
discarding `total_data`); otherwise the chunk is appended and, if the
accumulated buffer now contains the delimiter byte `b'\n'` = 10 anywhere
(the source asks for the position of the first `b'\n'` and binds it to a
`pos` it never uses), the whole of `total_data` is returned as `Ok`. If
the trace runs out the call is still blocked in `read` (`pending`). -/
def receive_data_go : List Bytes → Bytes → RecvOutcome
  | [], _ => RecvOutcome.pending
  | c :: cs, total_data =>
    if c.length = 0 then RecvOutcome.closed
    else
      if (10 : Nat) ∈ total_data ++ c then RecvOutcome.frame (total_data ++ c)
      else receive_data_go cs (total_data ++ c)

/-- `Connection::receive_data` starts with an empty accumulator. -/
def receive_data (reads : List Bytes) : RecvOutcome :=
  receive_data_go reads []

/-! ## input_task (src/session.rs, lines 64–96)

Driven by the trace of `io::stdin().read` results (the exact bytes each read
placed in the buffer; the read contract bounds each chunk by the buffer
length). The task's only outputs are the messages pushed on the input
channel and, when it returns, the drop of its channel sender — which is how
the consumer (`network_task`) observes the close: its `recv` fails and it
closes the connection. That close signal is modelled as a single `closed`
event at the point the task returns. -/

/-- The stdin buffer is `vec![0u8; 1024]` — a hard-coded 1024, with a
`TODO: configurable buffer size` comment; the configured
`output_buffer_size` is not consulted. -/
def input_task_buffer_size (_ : Config) : Nat := 1024

/-- The buffer as the code sees it after a read that produced `data`:
the bytes read followed by the untouched zero fill. -/
def readBuffer (data : Bytes) : Bytes :=
  data ++ List.replicate (1024 - data.length) 0

/-- `input.truncate(bytes_read)` keeps the first `bytes_read` bytes. -/
def truncateBuf (buf : Bytes) (n : Nat) : Bytes := buf.take n

/-- What the input channel's consumer can observe from the InputTask. -/
inductive InEvent
  | input (data : Bytes)
  | closed
deriving DecidableEq

/-- The `input_task` loop over a finite stdin-read trace. Returns the
events observable on the channel and whether the task has terminated
(`false` means it is still looping, blocked on the next read).
A zero-length read with `ignore_eof` set skips the iteration; with it
unset the loop breaks and the task returns `Ok(())`, dropping the sender
(`closed`). A non-empty read is truncated to its length and sent. -/
def input_task (ignore_eof : Bool) : List Bytes → List InEvent × Bool
  | [] => ([], false)
  | data :: rest =>
    if data.length = 0 then
      if ignore_eof then input_task ignore_eof rest
      else ([InEvent.closed], true)
    else
      let msg := truncateBuf (readBuffer data) data.length
      let r := input_task ignore_eof rest
      (InEvent.input msg :: r.1, r.2)

/-! ## network_task (src/session.rs, lines 16–62)

Each loop iteration is one completed `select!` arm, so the task is driven
by a trace of arm outcomes. A channel reception that succeeds carries the
bytes received and — as the oracle for the external socket — the result
`connection.send_data` returns for them. -/

/-- Result of `Connection::send_data` as seen by `network_task`. -/
inductive SendResult
  | ok
  | err
deriving DecidableEq

/-- One completed `select!` arm. -/
inductive NetEvent
  | inputMsg (data : Bytes) (res : SendResult)
  | inputChannelClosed
  | netData (data : Bytes)
  | netErr
deriving DecidableEq

/-- The actions `network_task` performs on the connection / local output. -/
inductive NetAction
  | send (data : Bytes)
  | print (data : Bytes)
  | closeConn
deriving DecidableEq

/-- How the task left the loop: still `running` (trace exhausted inside the
loop), `done` (`return Ok(())` after closing the connection on channel
close), or `failed` (receive error propagated as `Err`). -/
inductive NetOutcome
  | running
  | done
  | failed
deriving DecidableEq

/-- The `network_task` loop. A successful channel reception attempts
`send_data`; both the `Ok` and the `Err` branch of that send only log, and
the loop continues with the same connection. A failed reception (channel
closed) closes the connection and returns `Ok`. Received network data is
printed; a receive error returns `Err`. -/
def network_task : List NetEvent → List NetAction × NetOutcome
  | [] => ([], NetOutcome.running)
  | NetEvent.inputMsg data _ :: rest =>
    let r := network_task rest
    (NetAction.send data :: r.1, r.2)
  | NetEvent.inputChannelClosed :: _ => ([NetAction.closeConn], NetOutcome.done)
  | NetEvent.netData data :: rest =>
    let r := network_task rest
    (NetAction.print data :: r.1, r.2)
  | NetEvent.netErr :: _ => ([], NetOutcome.failed)

/-! ## start_session (src/session.rs, lines 99–159)

The candidate loop, driven by an oracle `connOf` giving the result of
`Connection::from_config` for each address and `taskResult` giving the
result each spawned `network_task` eventually returns. `awaiting` a
previous handle at the top of an iteration only logs its result. -/

/-- A spawned network task's connection, identified abstractly. -/
abbrev Conn := Nat

/-- `SessionResult<()>`. -/
inductive SResult
  | ok
  | err
deriving DecidableEq

/-- The `for socket_address in &config_clone.addresses` loop: returns the
addresses attempted (in order), the connections for which a `network_task`
was spawned (in order), and the handle still pending after the loop. On a
`from_config` failure the iteration logs and `continue`s with no live
handle. -/
def session_loop (connOf : SockAddr → Option Conn) :
    List SockAddr → Option Conn → List SockAddr × List Conn × Option Conn
  | [], h => ([], [], h)
  | a :: rest, _ =>
    match connOf a with
    | some c =>
      let r := session_loop connOf rest (some c)
      (a :: r.1, c :: r.2.1, r.2.2)
    | none =>
      let r := session_loop connOf rest none
      (a :: r.1, r.2.1, r.2.2)

/-- `start_session`: run the candidate loop starting with no live handle;
afterwards, if a handle remains it is awaited and its result propagated by
`?`; otherwise the function returns `Ok(())`. -/
def start_session (connOf : SockAddr → Option Conn) (taskResult : Conn → SResult)
    (addrs : List SockAddr) : List SockAddr × List Conn × SResult :=
  let r := session_loop connOf addrs none
  (r.1, r.2.1,
    match r.2.2 with
    | some c => taskResult c
    | none => SResult.ok)

/-! ## parse_addresses (src/args.rs, lines 183–219)

The standard library's `SocketAddr` string parser is external and passed in
as `parseSock`. Rust panics (`unwrap` on a failed parse, and the explicit
`panic!` arms on a family mismatch) are modelled as a `panic` result that
aborts the whole loop, since a Rust panic unwinds the process. -/

/-- A value, or an aborted computation (Rust panic) with its message. -/
inductive PResult (α : Type)
  | ok (val : α)
  | panic (msg : String)
deriving DecidableEq

/-- `format!("{}:{}", host, port)`. -/
def addressString (host : String) (port : Nat) : String :=
  host ++ ":" ++ toString port

/-- The loop body of `parse_addresses` for one port: parse the formatted
string (`unwrap` panics when parsing fails), then match on the variant —
under `IPv4` a V6 result hits `panic!("Unexpected IPv4 address")`, and
symmetrically under `IPv6`. -/
def parse_one_address (parseSock : String → Option SockAddr) (host : String)
    (addr_type : AddressType) (port : Nat) : PResult SockAddr :=
  let address_str := addressString host port
  match addr_type with
  | AddressType.IPv4 =>
    match parseSock address_str with
    | none => PResult.panic "called unwrap on a None value"
    | some (SockAddr.v4 a p) => PResult.ok (SockAddr.v4 a p)
    | some (SockAddr.v6 _ _) => PResult.panic "Unexpected IPv4 address"
  | AddressType.IPv6 =>
    match parseSock address_str with
    | none => PResult.panic "called unwrap on a None value"
    | some (SockAddr.v6 a p) => PResult.ok (SockAddr.v6 a p)
    | some (SockAddr.v4 _ _) => PResult.panic "Unexpected IPv6 address"
  | AddressType.IP =>
    match parseSock address_str with
    | none => PResult.panic "called unwrap on a None value"
    | some sa => PResult.ok sa

/-- The `for port in parse_port_ranges(port_vec)` push loop; a panic in any
iteration aborts everything. -/
def parse_addresses_go (parseSock : String → Option SockAddr) (host : String)
    (addr_type : AddressType) : List Nat → PResult (List SockAddr)
  | [] => PResult.ok []
  | p :: ps =>
    match parse_one_address parseSock host addr_type p with
    | PResult.panic m => PResult.panic m
    | PResult.ok a =>
      match parse_addresses_go parseSock host addr_type ps with
      | PResult.panic m => PResult.panic m
      | PResult.ok rest => PResult.ok (a :: rest)

/-- `parse_addresses` (src/args.rs, lines 183–219). -/
def parse_addresses (parseSock : String → Option SockAddr) (host : String)
    (port_vec : String) (addr_type : AddressType) : PResult (List SockAddr) :=
  parse_addresses_go parseSock host addr_type (parse_port_ranges port_vec)

/-- A concrete instantiation of the external `SocketAddr` parser, defined
only at the address string used in the counterexamples: Rust parses
`"[::1]:80"` as a V6 socket address. -/
def parseSockV6Only : String → Option SockAddr :=
  fun s => if s = "[::1]:80" then some (SockAddr.v6 1 80) else none

/-- A connect oracle for witnesses: only the third candidate accepts. -/
def connOfThird : SockAddr → Option Conn :=
  fun a => if a = SockAddr.v4 3 80 then some 7 else none

/-- A task-result oracle for witnesses: every network task returns `Ok`. -/
def allOkTask : Conn → SResult := fun _ => SResult.ok

/-- A configuration whose output buffer size is 4096 (not the default). -/
def cfg4096 : Config :=
  ⟨AddressType.IP, [], false, false, 1024, 4096, false⟩

/-! ## Helper lemmas -/

/-- The port accumulator is only ever appended to. -/
theorem parse_port_ranges_go_eq (ts : List (List Char)) (acc : List Nat) :
    parse_port_ranges_go ts acc = acc ++ (ts.map expandToken).flatten := by
  induction ts generalizing acc with
  | nil => simp [parse_port_ranges_go]
  | cons t ts ih => simp [parse_port_ranges_go, ih, List.append_assoc]

/-- `input.truncate(bytes_read)` recovers exactly the bytes read, dropping
the zero fill of the rest of the buffer. -/
theorem truncateBuf_readBuffer (d : Bytes) :
    truncateBuf (readBuffer d) d.length = d :=
  List.take_left d _

/-- With `ignore_eof` set the input task never terminates and never drops
its sender. -/
theorem input_task_true_no_close (reads : List Bytes) :
    (input_task true reads).2 = false ∧
      InEvent.closed ∉ (input_task true reads).1 := by
  induction reads with
  | nil => simp [input_task]
  | cons d rest ih =>
    by_cases h : d.length = 0
    · simpa [input_task, h] using ih
    · simp [input_task, h, ih.1, ih.2]

/-- With `ignore_eof` unset, non-empty reads followed by a zero-length read
produce exactly the messages read and then the close, and the task
terminates without touching the rest of the trace. -/
theorem input_task_false_eof_events (pre post : List Bytes)
    (hpre : ∀ c ∈ pre, c ≠ []) :
    input_task false (pre ++ [] :: post)
      = (pre.map (fun d => InEvent.input d) ++ [InEvent.closed], true) := by
  induction pre with
  | nil => simp [input_task]
  | cons d pre ih =>
    have hd : d ≠ [] := hpre d (List.mem_cons_self d pre)
    have hlen : ¬ d.length = 0 := by simpa using hd
    have ih2 := ih (fun c hc => hpre c (List.mem_cons_of_mem d hc))
    simp [input_task, hlen, ih2, truncateBuf_readBuffer]

/-- Closing before any delimiter yields `closed` whatever was accumulated. -/
theorem receive_data_go_closed_of (pre : List Bytes) (post : List Bytes) :
    ∀ acc : Bytes, (∀ c ∈ pre, (10 : Nat) ∉ c) → (10 : Nat) ∉ acc →
      receive_data_go (pre ++ [] :: post) acc = RecvOutcome.closed := by
  induction pre with
  | nil => intro acc _ _; simp [receive_data_go]
  | cons c cs ih =>
    intro acc hpre hacc
    have hc : (10 : Nat) ∉ c := hpre c (List.mem_cons_self c cs)
    by_cases hlen : c.length = 0
    · simp [receive_data_go, hlen]
    · have hmem : (10 : Nat) ∉ acc ++ c := by
        simp [List.mem_append, hacc, hc]
      simp only [List.cons_append]
      simp [receive_data_go, hlen, hmem]
      exact ih (acc ++ c) (fun x hx => hpre x (List.mem_cons_of_mem c hx)) hmem

/-- Every frame `receive_data` returns contains the delimiter byte. -/
theorem receive_data_go_frame_mem (reads : List Bytes) :
    ∀ acc d, receive_data_go reads acc = RecvOutcome.frame d → (10 : Nat) ∈ d := by
  induction reads with
  | nil => intro acc d h; simp [receive_data_go] at h
  | cons c cs ih =>
    intro acc d h
    by_cases hlen : c.length = 0
    · simp [receive_data_go, hlen] at h
    · by_cases hmem : (10 : Nat) ∈ acc ++ c
      · simp [receive_data_go, hlen, hmem] at h
        exact h ▸ hmem
      · simp [receive_data_go, hlen, hmem] at h
        exact ih (acc ++ c) d h

/-- Every address in the list is attempted, in order, regardless of the
live handle carried into the loop. -/
theorem session_loop_attempts (connOf : SockAddr → Option Conn)
    (addrs : List SockAddr) :
    ∀ h, (session_loop connOf addrs h).1 = addrs := by
  induction addrs with
  | nil => intro h; rfl
  | cons a rest ih =>
    intro h
    cases hc : connOf a <;> simp [session_loop, hc, ih]

/-! ## Claim theorems -/

/-- C1: claimed — `receive_data` returns exactly the accumulated bytes up
to and including the first delimiter, never two messages concatenated.
The code instead returns the whole accumulated buffer: when one underlying
read delivers `b"hello\nworld\n"` (TCP may coalesce the two sends), the
call returns all twelve bytes, not `b"hello\n"`; the two messages come
back separately only when the reads happen to deliver them separately. -/
theorem receive_data_coalesced_concatenates :
    receive_data [[104, 101, 108, 108, 111, 10, 119, 111, 114, 108, 100, 10]]
        = RecvOutcome.frame [104, 101, 108, 108, 111, 10, 119, 111, 114, 108, 100, 10]
    ∧ receive_data [[104, 101, 108, 108, 111, 10, 119, 111, 114, 108, 100, 10]]
        ≠ RecvOutcome.frame [104, 101, 108, 108, 111, 10]
    ∧ receive_data [[104, 101, 108, 108, 111, 10]]
        = RecvOutcome.frame [104, 101, 108, 108, 111, 10]
    ∧ receive_data [[119, 111, 114, 108, 100, 10]]
        = RecvOutcome.frame [119, 111, 114, 108, 100, 10] := by
  decide

/-- C2: port expansion is the ordered concatenation of each comma-separated
token's expansion; a single in-range port yields itself, an ascending range
expands inclusively, and malformed tokens (non-numeric, reversed, above
65535, wrong arity) are skipped without aborting the rest; duplicates are
preserved. -/
theorem parse_port_ranges_expansion :
    (∀ s : String,
        parse_port_ranges s = ((splitOnChar ',' s.data).map expandToken).flatten)
    ∧ parse_port_ranges "80" = [80]
    ∧ parse_port_ranges "80-82" = [80, 81, 82]
    ∧ parse_port_ranges "80,443" = [80, 443]
    ∧ parse_port_ranges "90-80" = []
    ∧ parse_port_ranges "abc,443" = [443]
    ∧ parse_port_ranges "66000" = []
    ∧ parse_port_ranges "1-2-3" = []
    ∧ parse_port_ranges "80,80" = [80, 80] :=
  ⟨fun s => by simpa [parse_port_ranges] using
      parse_port_ranges_go_eq (splitOnChar ',' s.data) [],
    by decide, by decide, by decide, by decide, by decide, by decide,
    by decide, by decide⟩

/-- C3: claimed — an empty candidate sequence is reported as a fatal
failure. The code's `for` loop over `config.addresses` never runs on an
empty list, no handle exists afterwards, and `start_session` returns
`Ok(())`: a silent successful no-op, whatever the oracles. -/
theorem start_session_empty_silent_ok (connOf : SockAddr → Option Conn)
    (taskResult : Conn → SResult) :
    start_session connOf taskResult [] = ([], [], SResult.ok) :=
  rfl

/-- C4: claimed — a family mismatch yields `ResolutionError::FamilyMismatch`
and never a panic. The code's `IPv4` arm matches the parsed `SocketAddr`
and hits `panic!("Unexpected IPv4 address")` whenever the standard-library
parser returns a V6 address, as it does for host `"[::1]"`. -/
theorem parse_addresses_family_mismatch_panics
    (parseSock : String → Option SockAddr) (i p : Nat)
    (h : parseSock "[::1]:80" = some (SockAddr.v6 i p)) :
    parse_addresses parseSock "[::1]" "80" AddressType.IPv4
      = PResult.panic "Unexpected IPv4 address" := by
  have hps : parseSock (addressString "[::1]" 80) = some (SockAddr.v6 i p) := by
    have haddr : addressString "[::1]" 80 = "[::1]:80" := by decide
    rw [haddr, h]
  have hpr : parse_port_ranges "80" = [80] := by decide
  simp [parse_addresses, hpr, parse_addresses_go, parse_one_address, hps]

theorem parse_addresses_family_mismatch_panics_witness :
    parse_addresses parseSockV6Only "[::1]" "80" AddressType.IPv4
      = PResult.panic "Unexpected IPv4 address" :=
  parse_addresses_family_mismatch_panics parseSockV6Only 1 80 (by decide)

/-- C5: with ignore-EOF enabled a zero-length stdin read is skipped — the
task neither terminates nor lets its sender drop (the consumer-visible
close signal) — while with it disabled the first zero-length read produces
exactly one close signal and the task terminates, ignoring the rest of the
trace. -/
theorem input_task_eof_policy :
    (∀ rest : List Bytes, input_task true ([] :: rest) = input_task true rest)
    ∧ (∀ reads : List Bytes,
        (input_task true reads).2 = false ∧
          InEvent.closed ∉ (input_task true reads).1)
    ∧ (∀ pre post : List Bytes, (∀ c ∈ pre, c ≠ []) →
        input_task false (pre ++ [] :: post)
          = (pre.map (fun d => InEvent.input d) ++ [InEvent.closed], true)) :=
  ⟨fun rest => by simp [input_task],
    input_task_true_no_close,
    input_task_false_eof_events⟩

theorem input_task_eof_policy_witness :
    input_task false ([[104]] ++ [] :: [[105]])
      = ([InEvent.input [104], InEvent.closed], true) :=
  input_task_eof_policy.2.2 [[104]] [[105]] (by decide)

/-- C6: when the peer closes (a zero-length read) before any delimiter has
arrived, `receive_data` fails with the peer-closed error
(`SessionError::ClientDisconnected`), discarding the accumulated partial
data; and no `Ok` result is ever empty or cut short of a delimiter. -/
theorem receive_data_peer_closed_error (pre post : List Bytes)
    (hpre : ∀ c ∈ pre, (10 : Nat) ∉ c) :
    receive_data (pre ++ [] :: post) = RecvOutcome.closed
    ∧ ∀ reads d, receive_data reads = RecvOutcome.frame d →
        d ≠ [] ∧ (10 : Nat) ∈ d :=
  ⟨receive_data_go_closed_of pre post [] hpre (by simp),
    fun reads d h =>
      have hd : (10 : Nat) ∈ d := receive_data_go_frame_mem reads [] d h
      ⟨fun hnil => by simp [hnil] at hd, hd⟩⟩

theorem receive_data_peer_closed_error_witness :
    receive_data [[104], []] = RecvOutcome.closed :=
  (receive_data_peer_closed_error [[104]] [] (by decide)).1

/-- C7 counterexample: after `send_data` fails for the first message, the
network task neither closes the connection nor returns — it stays in the
loop and sends the next message on the same connection, contradicting the
claimed teardown-and-demote policy. -/
theorem network_task_send_failure_not_demoted :
    network_task [NetEvent.inputMsg [104] SendResult.err,
        NetEvent.inputMsg [105] SendResult.ok]
      = ([NetAction.send [104], NetAction.send [105]], NetOutcome.running)
    ∧ NetAction.closeConn ∉ (network_task [NetEvent.inputMsg [104] SendResult.err,
        NetEvent.inputMsg [105] SendResult.ok]).1
    ∧ (network_task [NetEvent.inputMsg [104] SendResult.err,
        NetEvent.inputMsg [105] SendResult.ok]).2 = NetOutcome.running := by
  decide

/-- C7 amended: a send failure is only logged — the task's subsequent
actions and outcome are those of the remaining trace, identical for a
failed and a successful send — and the connection is closed only when the
input channel itself closes. -/
theorem network_task_send_failure_policy :
    (∀ (d : Bytes) (res : SendResult) (rest : List NetEvent),
        network_task (NetEvent.inputMsg d res :: rest)
          = (NetAction.send d :: (network_task rest).1, (network_task rest).2))
    ∧ (∀ evts : List NetEvent,
        NetAction.closeConn ∈ (network_task evts).1 →
          NetEvent.inputChannelClosed ∈ evts) := by
  constructor
  · intro d res rest; rfl
  · intro evts
    induction evts with
    | nil => simp [network_task]
    | cons e rest ih =>
      cases e with
      | inputMsg d res =>
        intro h
        rcases List.mem_cons.mp h with h1 | h2
        · exact absurd h1 (by simp)
        · exact List.mem_cons_of_mem _ (ih h2)
      | inputChannelClosed =>
        intro _; exact List.mem_cons_self _ _
      | netData d =>
        intro h
        rcases List.mem_cons.mp h with h1 | h2
        · exact absurd h1 (by simp)
        · exact List.mem_cons_of_mem _ (ih h2)
      | netErr =>
        intro h; simp [network_task] at h

theorem network_task_send_failure_policy_witness :
    NetEvent.inputChannelClosed
      ∈ [NetEvent.inputMsg [104] SendResult.err, NetEvent.inputChannelClosed] :=
  network_task_send_failure_policy.2
    [NetEvent.inputMsg [104] SendResult.err, NetEvent.inputChannelClosed]
    (by decide)

/-- C8: every candidate is attempted in sequence order; when the first two
refuse and the third accepts, all three are attempted in order, exactly one
network task is spawned, bound to the third's connection, and its result is
the one the session finally awaits. -/
theorem start_session_candidate_fallback
    (connOf : SockAddr → Option Conn) (taskResult : Conn → SResult)
    (a1 a2 a3 : SockAddr) (c : Conn)
    (h1 : connOf a1 = none) (h2 : connOf a2 = none) (h3 : connOf a3 = some c) :
    start_session connOf taskResult [a1, a2, a3]
      = ([a1, a2, a3], [c], taskResult c)
    ∧ ∀ addrs : List SockAddr,
        (start_session connOf taskResult addrs).1 = addrs := by
  constructor
  · simp [start_session, session_loop, h1, h2, h3]
  · intro addrs
    simpa [start_session] using session_loop_attempts connOf addrs none

theorem start_session_candidate_fallback_witness :
    start_session connOfThird allOkTask
        [SockAddr.v4 1 80, SockAddr.v4 2 80, SockAddr.v4 3 80]
      = ([SockAddr.v4 1 80, SockAddr.v4 2 80, SockAddr.v4 3 80], [7],
          allOkTask 7) :=
  (start_session_candidate_fallback connOfThird allOkTask
    (SockAddr.v4 1 80) (SockAddr.v4 2 80) (SockAddr.v4 3 80) 7
    (by decide) (by decide) (by decide)).1

/-- C9: claimed — each iteration reads up to the configured
output-buffer-size bytes. The stdin buffer is the hard-coded
`vec![0u8; 1024]` for every configuration, so a configuration with
`output_buffer_size = 4096` still reads at most 1024 bytes; the second
half of the claim holds: truncation makes the sent message exactly the
bytes read, with no padding. -/
theorem input_task_read_capacity_fixed :
    input_task_buffer_size cfg4096 = 1024
    ∧ cfg4096.output_buffer_size = 4096
    ∧ input_task_buffer_size cfg4096 ≠ cfg4096.output_buffer_size
    ∧ (∀ c : Config, input_task_buffer_size c = 1024)
    ∧ (∀ data : Bytes, truncateBuf (readBuffer data) data.length = data) :=
  ⟨rfl, rfl, by decide, fun _ => rfl, truncateBuf_readBuffer⟩

/-- C10: every payload the input task pushes on the channel is non-empty
and at most 1024 bytes, given the read contract that each stdin read
returns at most the 1024-byte buffer's length. -/
theorem input_task_payload_bounds (ignore_eof : Bool) (reads : List Bytes)
    (hreads : ∀ c ∈ reads, c.length ≤ 1024) :
    ∀ d : Bytes, InEvent.input d ∈ (input_task ignore_eof reads).1 →
      0 < d.length ∧ d.length ≤ 1024 := by
  induction reads with
  | nil => intro d h; simp [input_task] at h
  | cons data rest ih =>
    intro d h
    have hrest : ∀ c ∈ rest, c.length ≤ 1024 :=
      fun c hc => hreads c (List.mem_cons_of_mem data hc)
    by_cases hlen : data.length = 0
    · cases hig : ignore_eof with
      | true =>
        rw [hig] at h ih
        simp [input_task, hlen] at h
        exact ih hrest d h
      | false =>
        rw [hig] at h ih
        simp [input_task, hlen] at h
    · simp [input_task, hlen, truncateBuf_readBuffer] at h
      rcases h with h1 | h2
      · rw [h1]
        exact ⟨Nat.pos_of_ne_zero hlen, hreads data (List.mem_cons_self data rest)⟩
      · exact ih hrest d h2

theorem input_task_payload_bounds_witness :
    0 < ([104, 105] : Bytes).length ∧ ([104, 105] : Bytes).length ≤ 1024 :=
  input_task_payload_bounds false [[104, 105]] (by decide) [104, 105] (by decide)

end Kercat
